import Mathlib

/-!
Shallow embedding of a collection of browser arcade games (Snake, Flappy
Bird, Match-Three, Space Invaders, Pixel Runner) and proofs about the
board algorithms, per-tick simulation steps and timing code.

Modelling conventions:
* JavaScript numbers that hold pixel positions, velocities or seconds are
  embedded as rationals; grid cell contents are integers (`-1` is an
  empty cell); loop counters and indices are naturals.
* Unseeded randomness (`Math.random()`) is modelled by an explicit stream
  of draws: a function from a draw index `k` to a value, threaded through
  each computation in the order the source consumes draws.
  `Math.floor(Math.random() * n)` becomes `rng k % n`.
* Retry loops whose termination depends on the random stream
  (`createBoard`'s do/while, the platform generation while loops) take
  explicit fuel and return `Option`; `none` is the (unreachable in
  practice) fuel-exhaustion case.
* Bounded `while` loops whose counter advances every round are embedded
  structurally with a countdown that mirrors the remaining room of the
  loop counter.
-/

/-- Model of the JavaScript expression `Math.min a b` on rationals. -/
def jsMin (a b : ℚ) : ℚ := if a ≤ b then a else b

/-- Model of the JavaScript expression `Math.max a b` on rationals. -/
def jsMax (a b : ℚ) : ℚ := if a ≤ b then b else a

/-- The double constant `Math.PI`, modelled by its decimal literal. -/
def jsPI : ℚ := 3.141592653589793

namespace M3

/-- A gem grid: a list of rows, each row a list of gem type indices.
`-1` marks an empty cell (a cleared gem awaiting gravity). -/
abbrev Grid := List (List Int)

/-- Reading `grid[r][c]`.  The source only reads in bounds; out-of-range
reads give `-1` in the model. -/
def cellAt (g : Grid) (r c : Nat) : Int := (g.getD r []).getD c (-1)

/-- Reading `row[j]` of a single row. -/
def rowGet (row : List Int) (j : Nat) : Int := row.getD j (-1)

/-- Writing `grid[r][c] = v` (in-place in the source; functional here). -/
def setCell (g : Grid) (r c : Nat) (v : Int) : Grid := g.set r ((g.getD r []).set c v)

structure CellPos where
  row : Nat
  col : Nat
  deriving DecidableEq

structure MatchGroup where
  cells : List CellPos
  deriving DecidableEq

/-- `randomGem n` = `Math.floor(Math.random() * n)`: the stream draw at
position `k`, reduced mod `n`. -/
def randomGem (rng : Nat → Nat) (k n : Nat) : Int := ((rng k % n : Nat) : Int)

/-- The inner `while (end < n && grid[r][end] === t) end++` scan of
`findMatches` (horizontal).  The countdown argument is the remaining room
`n - e` of the loop counter `e`. -/
def runEndH (g : Grid) (r : Nat) (t : Int) : Nat → Nat → Nat
  | 0, e => e
  | k+1, e => if cellAt g r e = t then runEndH g r t k (e+1) else e

/-- Vertical variant of `runEndH`: `while (end < n && grid[end][c] === t)`. -/
def runEndV (g : Grid) (c : Nat) (t : Int) : Nat → Nat → Nat
  | 0, e => e
  | k+1, e => if cellAt g e c = t then runEndV g c t k (e+1) else e

/-- The horizontal `while (c < n)` scan of one row in `findMatches`.
`fuel` bounds the number of rounds; the source loop advances `c` by at
least one per round, so `fuel = n` reproduces it exactly. -/
def scanRow (g : Grid) (n r : Nat) : Nat → Nat → List MatchGroup
  | 0, _ => []
  | fuel+1, c =>
    if n ≤ c then []
    else
      let t := cellAt g r c
      if t < 0 then scanRow g n r fuel (c+1)
      else
        let e := runEndH g r t (n - (c+1)) (c+1)
        if 3 ≤ e - c then
          ⟨(List.range' c (e - c)).map (fun i => ⟨r, i⟩)⟩ :: scanRow g n r fuel e
        else scanRow g n r fuel e

/-- The vertical `while (r < n)` scan of one column in `findMatches`. -/
def scanCol (g : Grid) (n c : Nat) : Nat → Nat → List MatchGroup
  | 0, _ => []
  | fuel+1, r =>
    if n ≤ r then []
    else
      let t := cellAt g r c
      if t < 0 then scanCol g n c fuel (r+1)
      else
        let e := runEndV g c t (n - (r+1)) (r+1)
        if 3 ≤ e - r then
          ⟨(List.range' r (e - r)).map (fun i => ⟨i, c⟩)⟩ :: scanCol g n c fuel e
        else scanCol g n c fuel e

/-- `findMatches`: all maximal horizontal runs of length at least 3 of equal
non-empty cells, row by row, followed by all vertical ones, column by column. -/
def findMatches (g : Grid) : List MatchGroup :=
  let n := g.length
  (List.range n).flatMap (fun r => scanRow g n r n 0)
    ++ (List.range n).flatMap (fun c => scanCol g n c n 0)

/-- `getMatchedSet`: the union of all matched cells (a `Set<string>` in the
source, so duplicates collapse). -/
def getMatchedSet (ms : List MatchGroup) : List CellPos :=
  (ms.flatMap (fun m => m.cells)).dedup

/-- The do/while guard of `createBoard`: placing `gem` at the next cell of
the partial row `row` (below the finished rows `rs`) would complete a
horizontal or vertical run of three. -/
def badAt (rs : Grid) (row : List Int) (gem : Int) : Bool :=
  (decide (2 ≤ row.length) && decide (rowGet row (row.length - 1) = gem)
      && decide (rowGet row (row.length - 2) = gem))
    || (decide (2 ≤ rs.length) && decide (cellAt rs (rs.length - 1) row.length = gem)
      && decide (cellAt rs (rs.length - 2) row.length = gem))

/-- The do/while retry of `createBoard`: draw gems from the stream until
one passes the guard; fuel bounds the retries.  Returns the gem and the
next stream position. -/
def pickGem (types : Nat) (rng : Nat → Nat) (bad : Int → Bool) : Nat → Nat → Option (Int × Nat)
  | 0, _ => none
  | fuel+1, k =>
    let gem := randomGem rng k types
    if bad gem then pickGem types rng bad fuel (k+1) else some (gem, k+1)

/-- The inner column loop of `createBoard`: extend `row` by `m` more cells. -/
def buildRow (types : Nat) (rng : Nat → Nat) (fuelPick : Nat) (rs : Grid) :
    Nat → List Int → Nat → Option (List Int × Nat)
  | 0, row, k => some (row, k)
  | m+1, row, k =>
    match pickGem types rng (badAt rs row) fuelPick k with
    | none => none
    | some (gem, k2) => buildRow types rng fuelPick rs m (row ++ [gem]) k2

/-- The outer row loop of `createBoard`: append `m` more rows of `size` cells. -/
def buildRows (size types : Nat) (rng : Nat → Nat) (fuelPick : Nat) :
    Nat → Grid → Nat → Option (Grid × Nat)
  | 0, rs, k => some (rs, k)
  | m+1, rs, k =>
    match buildRow types rng fuelPick rs size [] k with
    | none => none
    | some (row, k2) => buildRows size types rng fuelPick m (rs ++ [row]) k2

/-- `createBoard(size, types)`: build a `size` by `size` grid cell by cell,
redrawing any gem that would complete an immediate run of three. -/
def createBoard (size types : Nat) (rng : Nat → Nat) (fuelPick k : Nat) : Option Grid :=
  (buildRows size types rng fuelPick size [] k).map (fun p => p.1)

/-- The column of `grid` at index `c`, top to bottom. -/
def columnOf (g : Grid) (c : Nat) : List Int := g.map (fun row => row.getD c (-1))

/-- The `existing` list of `applyGravity`: surviving gems of a column with
their source rows, collected bottom-up (`r` from `n-1` down to `0`). -/
def existingOf (col : List Int) (n : Nat) : List (Nat × Int) :=
  (List.range n).reverse.filterMap (fun r =>
    let v := col.getD r (-1)
    if 0 ≤ v then some (r, v) else none)

structure FallInfo where
  col : Nat
  toRow : Nat
  fromRow : Int
  gemType : Int
  deriving DecidableEq

/-- One column of `applyGravity`'s output grid: survivors packed at the
bottom (in original order), topped up with fresh random gems.  The source
fills new rows `write` down to `0` with successive draws, so the top
segment is the reverse of the draw order. -/
def gravityColumn (types : Nat) (rng : Nat → Nat) (k n : Nat) (col : List Int) : List Int :=
  let ex := existingOf col n
  let numNew := n - ex.length
  ((List.range numNew).map (fun i => randomGem rng (k+i) types)).reverse
    ++ (ex.map (fun p => p.2)).reverse

/-- The `fallData` entries produced for one column: moved survivors, then
the new gems entering from above (rows `write` down to `0`). -/
def columnFalls (c types : Nat) (rng : Nat → Nat) (k n : Nat) (col : List Int) : List FallInfo :=
  let ex := existingOf col n
  let numNew := n - ex.length
  (ex.enum.filterMap (fun je =>
      if je.2.1 ≠ n - 1 - je.1 then some ⟨c, n - 1 - je.1, (je.2.1 : Int), je.2.2⟩ else none))
    ++ (List.range numNew).map (fun t =>
      ⟨c, numNew - 1 - t, (-1 : Int) - t, randomGem rng (k+t) types⟩)

/-- The per-column loop of `applyGravity`, threading the random stream:
each column consumes one draw per newly generated gem. -/
def gravityCols (g : Grid) (types : Nat) (rng : Nat → Nat) (n : Nat) :
    List Nat → Nat → List (List Int × List FallInfo)
  | [], _ => []
  | c :: rest, k =>
    let col := columnOf g c
    let numNew := n - (existingOf col n).length
    (gravityColumn types rng k n col, columnFalls c types rng k n col)
      :: gravityCols g types rng n rest (k + numNew)

/-- `applyGravity`: compact every column downwards, fill the emptied top
cells with fresh random gems, and report the fall animation data. -/
def applyGravity (g : Grid) (types : Nat) (rng : Nat → Nat) (k : Nat) :
    Grid × List FallInfo :=
  let n := g.length
  let cols := gravityCols g types rng n (List.range n) k
  ((List.range n).map (fun r => cols.map (fun cd => cd.1.getD r (-1))),
    cols.flatMap (fun cd => cd.2))

/-- The `while (left > 0 && grid[r][left-1] === t) left--` scan of `wouldMatch`. -/
def extLeft (g : Grid) (r : Nat) (t : Int) : Nat → Nat
  | 0 => 0
  | c+1 => if cellAt g r c = t then extLeft g r t c else c+1

/-- The `while (right < n-1 && grid[r][right+1] === t) right++` scan; the
countdown is the remaining room `(n-1) - c`. -/
def extRight (g : Grid) (r : Nat) (t : Int) : Nat → Nat → Nat
  | 0, c => c
  | k+1, c => if cellAt g r (c+1) = t then extRight g r t k (c+1) else c

/-- Vertical upward scan of `wouldMatch`. -/
def extUp (g : Grid) (c : Nat) (t : Int) : Nat → Nat
  | 0 => 0
  | r+1 => if cellAt g r c = t then extUp g c t r else r+1

/-- Vertical downward scan of `wouldMatch`. -/
def extDown (g : Grid) (c : Nat) (t : Int) : Nat → Nat → Nat
  | 0, r => r
  | k+1, r => if cellAt g (r+1) c = t then extDown g c t k (r+1) else r

/-- `wouldMatch`: would swapping `(r1,c1)` and `(r2,c2)` create a run of
three or more through either swapped cell?  The source swaps in place,
scans the four lines, and swaps back; the model scans the swapped grid. -/
def wouldMatch (g : Grid) (r1 c1 r2 c2 : Nat) : Bool :=
  let t1 := cellAt g r1 c1
  let t2 := cellAt g r2 c2
  if t1 = t2 then false
  else
    let n := g.length
    let g2 := setCell (setCell g r1 c1 t2) r2 c2 t1
    let lf := extLeft g2 r1 t2 c1
    let rt := extRight g2 r1 t2 (n - 1 - c1) c1
    let tp := extUp g2 c1 t2 r1
    let bt := extDown g2 c1 t2 (n - 1 - r1) r1
    let lf2 := extLeft g2 r2 t1 c2
    let rt2 := extRight g2 r2 t1 (n - 1 - c2) c2
    let tp2 := extUp g2 c2 t1 r2
    let bt2 := extDown g2 c2 t1 (n - 1 - r2) r2
    decide (3 ≤ rt - lf + 1) || decide (3 ≤ bt - tp + 1)
      || decide (3 ≤ rt2 - lf2 + 1) || decide (3 ≤ bt2 - tp2 + 1)

/-- The per-cell body of `findValidMove`: probe the right neighbour, then
the down neighbour. -/
def cellMove (g : Grid) (n r c : Nat) : Option (List CellPos) :=
  if decide (c < n - 1) && wouldMatch g r c r (c+1) then some [⟨r, c⟩, ⟨r, c+1⟩]
  else if decide (r < n - 1) && wouldMatch g r c (r+1) c then some [⟨r, c⟩, ⟨r+1, c⟩]
  else none

/-- `findValidMove`: the first swap of adjacent cells (row-major, right
before down) that would create a match, if any. -/
def findValidMove (g : Grid) : Option (List CellPos) :=
  let n := g.length
  (List.range n).findSome? (fun r => (List.range n).findSome? (fun c => cellMove g n r c))

/-- The Fisher-Yates loop of `shuffleBoard`: `i` runs from
`flat.length - 1` down to `1`, drawing `j = floor(random * (i+1))`. -/
def fyAux (rng : Nat → Nat) : Nat → List Int → Nat → List Int × Nat
  | 0, flat, k => (flat, k)
  | i+1, flat, k =>
    let j := rng k % (i+2)
    let a := flat.getD (i+1) (-1)
    let b := flat.getD j (-1)
    fyAux rng i ((flat.set (i+1) b).set j a) (k+1)

/-- One Fisher-Yates shuffle of the flattened grid. -/
def fyShuffle (rng : Nat → Nat) (flat : List Int) (k : Nat) : List Int × Nat :=
  fyAux rng (flat.length - 1) flat k

/-- Reassemble a flat list into rows: `ng[r] = flat.slice(r*n, (r+1)*n)`. -/
def reshape (flat : List Int) (n : Nat) : Grid :=
  (List.range n).map (fun r => (flat.drop (r * n)).take n)

/-- The attempt loop of `shuffleBoard`: up to `a` times, shuffle the flat
multiset of the grid and accept the candidate iff it has no matches and at
least one valid move.  Returns the accepted grid (if any) and the stream
position reached. -/
def shuffleAttempts (grid : Grid) (rng : Nat → Nat) : Nat → Nat → Option Grid × Nat
  | 0, k => (none, k)
  | a+1, k =>
    let res := fyShuffle rng grid.flatten k
    let ng := reshape res.1 grid.length
    if (findMatches ng).isEmpty && (findValidMove ng).isSome then (some ng, res.2)
    else shuffleAttempts grid rng a res.2

/-- `shuffleBoard`: 100 shuffle attempts, falling back to a fresh
`createBoard` when all fail. -/
def shuffleBoard (grid : Grid) (types : Nat) (rng : Nat → Nat) (fuelPick k : Nat) : Option Grid :=
  match shuffleAttempts grid rng 100 k with
  | (some ng, _) => some ng
  | (none, k2) => createBoard grid.length types rng fuelPick k2

/-- `calcScore`: 50 points for runs of three, 150 for four, 300 for longer,
summed over the groups and multiplied by the cascade level. -/
def calcScore (ms : List MatchGroup) (cascade : Nat) : Int :=
  (ms.foldl (fun tot m =>
    tot + (if m.cells.length ≤ 3 then 50 else if m.cells.length = 4 then 150 else 300)) 0)
    * (cascade : Int)

inductive AnimState where
  | idle
  | swapping
  | swappingBack
  | clearing
  | falling
  deriving DecidableEq

/-- The Match-Three in-run state touched by the animation state machine of
the draw loop.  Score floaters are presentation only and are not modelled. -/
structure M3Game where
  grid : Grid
  score : Int
  timeRemaining : ℚ
  cascadeLevel : Nat
  animState : AnimState
  swapFrom : CellPos
  swapTo : CellPos
  matchedCells : List CellPos
  fallData : List FallInfo
  hintMove : Option (List CellPos)

/-- The simultaneous swap statement
`[grid[sf.row][sf.col], grid[st.row][st.col]] = [grid[st.row][st.col], grid[sf.row][sf.col]]`. -/
def applySwap (g : Grid) (a b : CellPos) : Grid :=
  let v1 := cellAt g a.row a.col
  let v2 := cellAt g b.row b.col
  setCell (setCell g a.row a.col v2) b.row b.col v1

/-- The transition fired when the `swapping` animation completes: commit
the swap; if it made a match, start `clearing` with cascade level 1,
otherwise swap straight back and enter `swapping-back`. -/
def swapResolve (game : M3Game) : M3Game :=
  let grid2 := applySwap game.grid game.swapFrom game.swapTo
  let ms := findMatches grid2
  if 0 < ms.length then
    { game with
      grid := grid2
      matchedCells := getMatchedSet ms
      cascadeLevel := 1
      score := game.score + calcScore ms 1
      animState := AnimState.clearing }
  else
    { game with
      grid := applySwap grid2 game.swapFrom game.swapTo
      animState := AnimState.swappingBack }

/-- The transition fired when the `swapping-back` animation completes. -/
def swapBackResolve (game : M3Game) : M3Game :=
  { game with animState := AnimState.idle }

/-- The transition fired when the `clearing` animation completes: blank the
matched cells, apply gravity and enter `falling`. -/
def clearingResolve (game : M3Game) (types : Nat) (rng : Nat → Nat) (k : Nat) : M3Game :=
  let grid2 := game.matchedCells.foldl (fun g p => setCell g p.row p.col (-1)) game.grid
  let res := applyGravity grid2 types rng k
  { game with
    grid := res.1
    fallData := res.2
    matchedCells := []
    animState := AnimState.falling }

/-- The transition fired when the `falling` animation completes: cascade
into `clearing` again if new matches formed; otherwise settle, reshuffling
first when the board has no valid move. -/
def fallingResolve (game : M3Game) (types : Nat) (rng : Nat → Nat) (fuelPick k : Nat) :
    Option M3Game :=
  let ms := findMatches game.grid
  if 0 < ms.length then
    some { game with
      matchedCells := getMatchedSet ms
      cascadeLevel := game.cascadeLevel + 1
      score := game.score + calcScore ms (game.cascadeLevel + 1)
      animState := AnimState.clearing }
  else
    if findValidMove game.grid = none then
      match shuffleBoard game.grid types rng fuelPick k with
      | none => none
      | some g2 =>
        some { game with
          grid := g2
          cascadeLevel := 0
          animState := AnimState.idle
          hintMove := none }
    else
      some { game with
        cascadeLevel := 0
        animState := AnimState.idle
        hintMove := none }

/-- The countdown update at the top of the Match-Three draw loop while
playing: when a previous tick time exists, subtract the elapsed seconds
only when they are below half a second; always record `now`. -/
def m3TimerStep (timeRemaining lastTickTime now : ℚ) : ℚ × ℚ :=
  if 0 < lastTickTime then
    (if (now - lastTickTime) / 1000 < 1/2 then timeRemaining - (now - lastTickTime) / 1000
      else timeRemaining, now)
  else (timeRemaining, now)

end M3

namespace SN

structure GameSettings where
  speed : Nat
  gridSize : Nat
  wallTeleport : Bool

structure Point where
  x : Int
  y : Int
  deriving DecidableEq

inductive Direction where
  | up
  | down
  | left
  | right
  deriving DecidableEq

inductive GState where
  | menu
  | playing
  | paused
  | gameover
  deriving DecidableEq

def DIRECTION_VECTORS : Direction → Point
  | Direction.up => ⟨0, -1⟩
  | Direction.down => ⟨0, 1⟩
  | Direction.left => ⟨-1, 0⟩
  | Direction.right => ⟨1, 0⟩

/-- The wall-teleport idiom `((v % gridSize) + gridSize) % gridSize`, with
`%` the JavaScript (truncated) remainder. -/
def jsWrap (v g : Int) : Int := ((v.tmod g) + g).tmod g

/-- `spawnFood`: enumerate the free cells in column-major order and pick
one uniformly; with no free cell fall back to `(0,0)`. -/
def spawnFood (gridSize : Nat) (snake : List Point) (rng : Nat → Nat) (k : Nat) : Point :=
  let free := (List.range gridSize).flatMap (fun x =>
    (List.range gridSize).filterMap (fun y =>
      let p : Point := ⟨x, y⟩
      if p ∈ snake then none else some p))
  if 0 < free.length then free.getD (rng k % free.length) ⟨0, 0⟩ else ⟨0, 0⟩

/-- The Snake per-run state touched by `tick` (refs in the source). -/
structure SnakeState where
  state : GState
  snake : List Point
  dir : Direction
  nextDir : Direction
  food : Point
  score : Nat

/-- The tail of `tick` after wall handling: self collision against the
body (excluding the tail unless this move eats), then move and grow or
retract. -/
def tickMove (s : GameSettings) (rng : Nat → Nat) (k : Nat) (st : SnakeState) (nh : Point) :
    SnakeState :=
  let willEat := decide (nh.x = st.food.x) && decide (nh.y = st.food.y)
  let bodyToCheck := if willEat then st.snake else st.snake.dropLast
  if nh ∈ bodyToCheck then { st with state := GState.gameover }
  else
    let snake2 := nh :: st.snake
    if willEat then
      { st with
        snake := snake2
        score := st.score + 1
        food := spawnFood s.gridSize snake2 rng k }
    else { st with snake := snake2.dropLast }

/-- `tick`: commit the buffered direction, advance the head, wrap or die at
walls, then delegate to `tickMove`. -/
def tick (s : GameSettings) (rng : Nat → Nat) (k : Nat) (st : SnakeState) : SnakeState :=
  if st.state ≠ GState.playing then st
  else
    let dir := st.nextDir
    let vec := DIRECTION_VECTORS dir
    let head := st.snake.headD ⟨0, 0⟩
    let g : Int := s.gridSize
    let nh : Point := ⟨head.x + vec.x, head.y + vec.y⟩
    if s.wallTeleport then
      tickMove s rng k { st with dir := dir } ⟨jsWrap nh.x g, jsWrap nh.y g⟩
    else
      if nh.x < 0 ∨ g ≤ nh.x ∨ nh.y < 0 ∨ g ≤ nh.y then
        { st with dir := dir, state := GState.gameover }
      else tickMove s rng k { st with dir := dir } nh

end SN

namespace FB

def GRAVITY : ℚ := 9/20

def FLAP_STRENGTH : ℚ := -15/2

def GROUND_HEIGHT : ℚ := 60

inductive FBState where
  | ready
  | playing
  | gameover
  deriving DecidableEq

structure Bird where
  x : ℚ
  y : ℚ
  velocity : ℚ
  rotation : ℚ
  wingPhase : ℚ

structure Pipe where
  x : ℚ
  gapY : ℚ
  scored : Bool

/-- The Flappy Bird per-run state touched by the loop and `flap`. -/
structure FlappyGame where
  state : FBState
  bird : Bird
  pipes : List Pipe
  score : Nat
  frame : Nat

/-- `resetGame(w, h)`: recentre the bird, clear pipes, zero score and frame. -/
def resetGame (w h : ℚ) (g : FlappyGame) : FlappyGame :=
  { g with
    bird := ⟨w * (1/4), (h - GROUND_HEIGHT) / 2, 0, 0, 0⟩
    pipes := []
    score := 0
    frame := 0 }

/-- `flap`: in `ready` start playing and set the impulse; in `playing` set
the impulse; in `gameover` reset and return to `ready`. -/
def flap (w h : ℚ) (g : FlappyGame) : FlappyGame :=
  match g.state with
  | FBState.ready =>
    { g with
      state := FBState.playing
      bird := { g.bird with velocity := FLAP_STRENGTH } }
  | FBState.playing => { g with bird := { g.bird with velocity := FLAP_STRENGTH } }
  | FBState.gameover => { resetGame w h g with state := FBState.ready }

end FB

namespace SI

structure Alien where
  row : Nat
  col : Nat
  x : ℚ
  y : ℚ
  w : ℚ
  h : ℚ
  alive : Bool
  typ : Nat
  animFrame : Nat

/-- One fired formation step of the Space Invaders frame loop: toggle the
animation frame; if any alive alien stepped horizontally would leave
`[4, width-4]`, reverse direction and drop every alive alien, otherwise
step every alive alien sideways.  Returns the aliens, the direction and
the animation frame. -/
def formationStep (aliens : List Alien) (alienDir : ℚ) (alienAnimFrame : Nat)
    (alienSpeed alienDropPx width : ℚ) : List Alien × ℚ × Nat :=
  let af := (alienAnimFrame + 1) % 2
  let needDrop := aliens.any (fun a =>
    a.alive && (decide (a.x + alienDir * alienSpeed < 4)
      || decide (width - 4 < a.x + alienDir * alienSpeed + a.w)))
  if needDrop then
    (aliens.map (fun a =>
      if a.alive then { a with y := a.y + alienDropPx, animFrame := af } else a),
      -alienDir, af)
  else
    (aliens.map (fun a =>
      if a.alive then { a with x := a.x + alienDir * alienSpeed, animFrame := af } else a),
      alienDir, af)

/-- The Space Invaders frame delta-time: zero on the first frame after a
resume, otherwise the elapsed seconds clamped to at most 0.05. -/
def siDt (lastTime now : ℚ) : ℚ :=
  if 0 < lastTime then jsMin ((now - lastTime) / 1000) (1/20) else 0

end SI

namespace PR

structure PRSettings where
  baseSpeed : ℚ
  acceleration : ℚ
  gapMin : ℚ
  gapMax : ℚ
  platWidthMin : ℚ
  platWidthMax : ℚ
  obstacleChance : ℚ
  coinChance : ℚ
  doubleJump : Bool

structure Platform where
  x : ℚ
  y : ℚ
  w : ℚ

structure Coin where
  x : ℚ
  y : ℚ
  collected : Bool

inductive ObKind where
  | spike
  | flyer
  deriving DecidableEq

structure Obstacle where
  x : ℚ
  y : ℚ
  w : ℚ
  h : ℚ
  kind : ObKind
  baseY : ℚ
  phase : ℚ

def SPAWN_AHEAD : ℚ := 400

/-- `rand(min, max)` with the stream draw at `k` (a value in `[0,1)`). -/
def rand (rng : Nat → ℚ) (k : Nat) (lo hi : ℚ) : ℚ := lo + rng k * (hi - lo)

/-- `clamp(v, lo, hi)` as in the source: `Math.max(lo, Math.min(hi, v))`. -/
def clamp (v lo hi : ℚ) : ℚ := jsMax lo (jsMin hi v)

/-- Accumulator of a platform generation pass: the entity lists, the right
edge of the last generated platform and the random stream position. -/
structure GenState where
  platforms : List Platform
  coins : List Coin
  obstacles : List Obstacle
  lastRight : ℚ
  k : Nat

/-- One iteration of the frame-loop generation `while`: draw a gap, width
and clamped height, push the platform, maybe a coin, maybe an obstacle,
and advance `lastRight` to the new platform's right edge. -/
def genIter (s : PRSettings) (rng : Nat → ℚ) (h groundY : ℚ) (st : GenState) : GenState :=
  let gap := rand rng st.k s.gapMin s.gapMax
  let pw := rand rng (st.k + 1) s.platWidthMin s.platWidthMax
  let py := clamp (groundY + rand rng (st.k + 2) (-60) 40) (h * (35/100)) (h * (88/100))
  let nx := st.lastRight + gap
  let k3 := st.k + 3
  let cs :=
    if rng k3 < s.coinChance then
      (st.coins ++ [⟨nx + pw * rand rng (k3+1) (1/5) (4/5), py - rand rng (k3+2) 25 45, false⟩],
        k3 + 3)
    else (st.coins, k3 + 1)
  let os :=
    if rng cs.2 < s.obstacleChance then
      if rng (cs.2+1) < 3/5 then
        (st.obstacles
            ++ [⟨nx + pw * rand rng (cs.2+2) (3/10) (7/10), py - 14, 14, 14, ObKind.spike, 0, 0⟩],
          cs.2 + 3)
      else
        (st.obstacles
            ++ [⟨nx + pw * rand rng (cs.2+3) (1/5) (4/5), py - rand rng (cs.2+2) 50 90, 20, 16,
              ObKind.flyer, py - rand rng (cs.2+2) 50 90, rng (cs.2+4) * (jsPI * 2)⟩],
          cs.2 + 5)
    else (st.obstacles, cs.2 + 1)
  { platforms := st.platforms ++ [⟨nx, py, pw⟩]
    coins := cs.1
    obstacles := os.1
    lastRight := nx + pw
    k := os.2 }

/-- The frame-loop generation `while (lastRight < w + SPAWN_AHEAD)`, with
fuel for the (in practice bounded) iteration count. -/
def genLoop (s : PRSettings) (rng : Nat → ℚ) (w h groundY : ℚ) :
    Nat → GenState → Option GenState
  | 0, st => if st.lastRight < w + SPAWN_AHEAD then none else some st
  | fuel+1, st =>
    if st.lastRight < w + SPAWN_AHEAD then
      genLoop s rng w h groundY fuel (genIter s rng h groundY st)
    else some st

/-- The running maximum `lastRight` computed over the surviving platforms
at the top of the frame generation pass. -/
def maxRight (ps : List Platform) : ℚ :=
  ps.foldl (fun m p => if m < p.x + p.w then p.x + p.w else m) 0

/-- A whole frame generation pass: recompute the rightmost platform edge,
then run the generation loop. -/
def genPass (s : PRSettings) (rng : Nat → ℚ) (w h groundY : ℚ) (fuel : Nat)
    (platforms : List Platform) (coins : List Coin) (obstacles : List Obstacle) (k : Nat) :
    Option GenState :=
  genLoop s rng w h groundY fuel
    { platforms := platforms, coins := coins, obstacles := obstacles,
      lastRight := maxRight platforms, k := k }

/-- One iteration of the `initGame` platform `while`: only a gap, a width
and a clamped height are drawn (coins and obstacles are added by a later
pass over the finished platform list). -/
def initIter (s : PRSettings) (rng : Nat → ℚ) (h groundY : ℚ) (st : GenState) : GenState :=
  let gap := rand rng st.k s.gapMin s.gapMax
  let pw := rand rng (st.k + 1) s.platWidthMin s.platWidthMax
  let py := clamp (groundY + rand rng (st.k + 2) (-60) 40) (h * (35/100)) (h * (88/100))
  { st with
    platforms := st.platforms ++ [⟨st.lastRight + gap, py, pw⟩]
    lastRight := st.lastRight + gap + pw
    k := st.k + 3 }

/-- The `initGame` platform `while (lastRight < canvasW + SPAWN_AHEAD)`. -/
def initLoop (s : PRSettings) (rng : Nat → ℚ) (w h groundY : ℚ) :
    Nat → GenState → Option GenState
  | 0, st => if st.lastRight < w + SPAWN_AHEAD then none else some st
  | fuel+1, st =>
    if st.lastRight < w + SPAWN_AHEAD then
      initLoop s rng w h groundY fuel (initIter s rng h groundY st)
    else some st

/-- The initial platform generation of `initGame`: a 300 px starting
platform at `x = 0`, then the generation loop from `lastRight = 300`. -/
def initPlatforms (s : PRSettings) (rng : Nat → ℚ) (w h groundY : ℚ) (fuel k : Nat) :
    Option GenState :=
  initLoop s rng w h groundY fuel
    { platforms := [⟨0, groundY, 300⟩], coins := [], obstacles := [],
      lastRight := 300, k := k }

/-- The Pixel Runner frame delta-time: zero on the first frame after a
resume, otherwise the elapsed seconds clamped to at most 0.05. -/
def prDt (lastTime now : ℚ) : ℚ :=
  if 0 < lastTime then jsMin ((now - lastTime) / 1000) (1/20) else 0

end PR

namespace Persist

/-- JavaScript whitespace skipped by `parseInt` (the common cases). -/
def isJsSpace (ch : Char) : Bool :=
  ch = ' ' || ch = '\t' || ch = '\n' || ch = '\r'

/-- Value of a list of decimal digit characters. -/
def digitsToNat (l : List Char) : Nat :=
  l.foldl (fun a ch => 10 * a + (ch.toNat - 48)) 0

/-- Model of `parseInt(s, 10)`: skip leading whitespace, read an optional
sign, then the longest run of decimal digits; `none` models `NaN` (no
digits found). -/
def parseInt10 (cs : List Char) : Option Int :=
  let t := cs.dropWhile isJsSpace
  match t with
  | [] => none
  | ch :: rest =>
    if ch = '-' then
      let ds := rest.takeWhile Char.isDigit
      if ds.isEmpty then none else some (-(digitsToNat ds : Int))
    else if ch = '+' then
      let ds := rest.takeWhile Char.isDigit
      if ds.isEmpty then none else some (digitsToNat ds : Int)
    else
      let ds := t.takeWhile Char.isDigit
      if ds.isEmpty then none else some (digitsToNat ds : Int)

/-- The best-score `useState` initializer shared by the games:
`v ? parseInt(v, 10) : 0` on the stored value (`none` when the key is
missing).  The result is `none` when the initializer evaluates to `NaN`. -/
def bestInit (stored : Option (List Char)) : Option Int :=
  match stored with
  | none => some 0
  | some s => if s.isEmpty then some 0 else parseInt10 s

end Persist

/-! ### Derived predicates and concrete boards used by the theorems -/

namespace M3

/-- Freedom from horizontal and vertical runs of three consecutive equal
cells, over an `n` by `n` region. -/
def noRun3 (g : Grid) (n : Nat) : Prop :=
  (∀ r c, r < n → c + 2 < n →
      ¬(cellAt g r c = cellAt g r (c+1) ∧ cellAt g r (c+1) = cellAt g r (c+2)))
    ∧ (∀ r c, r + 2 < n → c < n →
      ¬(cellAt g r c = cellAt g (r+1) c ∧ cellAt g (r+1) c = cellAt g (r+2) c))

/-- The guard postcondition of a finished row, stated at column `c` of the
completed row `row2` under the finished rows `rs`. -/
def rowPostAt (rs : Grid) (row2 : List Int) (c : Nat) : Prop :=
  ¬(2 ≤ c ∧ rowGet row2 (c-1) = rowGet row2 c ∧ rowGet row2 (c-2) = rowGet row2 c)
    ∧ ¬(2 ≤ rs.length ∧ cellAt rs (rs.length - 1) c = rowGet row2 c
      ∧ cellAt rs (rs.length - 2) c = rowGet row2 c)

/-- The guard postcondition transported to a cell of the whole grid. -/
def gridPostAt (g : Grid) (r c : Nat) : Prop :=
  ¬(2 ≤ c ∧ cellAt g r (c-1) = cellAt g r c ∧ cellAt g r (c-2) = cellAt g r c)
    ∧ ¬(2 ≤ r ∧ cellAt g (r-1) c = cellAt g r c ∧ cellAt g (r-2) c = cellAt g r c)

end M3

/-- A seven-by-seven board with gem `(2r + c) mod 5` at cell `(r, c)`: it
has no matches, but also no valid move (no adjacent swap creates a run of
three). -/
def gridC2 : M3.Grid :=
  (List.range 7).map (fun r => (List.range 7).map (fun c => (((2*r + c) % 5 : Nat) : Int)))

/-- An adversarial draw stream for `shuffleBoard` on `gridC2`: during the
100 attempts (48 draws each) every Fisher-Yates pass realises the double
transposition of flat cells 5,1 and 10,2, which stacks three equal gems at
the start of row 0, so every attempt is rejected for having a match; the
draws from position 4800 on make the fallback `createBoard` rebuild
`gridC2` itself. -/
def rngC2 : Nat → Nat := fun k =>
  if k < 4800 then
    (fun i => if i = 5 then 1 else if i = 10 then 2 else i) (48 - (k % 48))
  else (k - 4800) % 5

/-- A Match-Three state sitting at the end of a `falling` animation on
`gridC2`. -/
def gameC2 : M3.M3Game :=
  ⟨gridC2, 0, 0, 0, M3.AnimState.falling, ⟨0, 0⟩, ⟨0, 0⟩, [], [], none⟩

/-- A draw stream whose nine first values make the Fisher-Yates pass the
identity permutation on a nine-cell board. -/
def rngW9 : Nat → Nat := fun k => 8 - (k % 8)

/-- A three-by-three board with no matches and a valid move. -/
def gridW0 : M3.Grid := [[0, 0, 1], [1, 1, 0], [0, 1, 0]]

/-! ### General list helpers -/

theorem getD_set {α : Type} (l : List α) (i j : Nat) (a d : α) :
    (l.set i a).getD j d = if i = j ∧ i < l.length then a else l.getD j d := by
  induction l generalizing i j with
  | nil => simp
  | cons x xs ih =>
    cases i with
    | zero =>
      cases j with
      | zero => simp
      | succ j2 => simp
    | succ i2 =>
      cases j with
      | zero => simp
      | succ j2 =>
        simp only [List.set_cons_succ, List.getD_cons_succ, List.length_cons]
        rw [ih]
        by_cases hc : i2 = j2 ∧ i2 < xs.length
        · rw [if_pos hc, if_pos (by omega)]
        · rw [if_neg hc, if_neg (by omega)]

theorem getD_append_lt {α : Type} (l1 l2 : List α) (j : Nat) (d : α) (h : j < l1.length) :
    (l1 ++ l2).getD j d = l1.getD j d := by
  rw [List.getD_eq_getElem _ _ (by simp; omega), List.getD_eq_getElem _ _ h,
    List.getElem_append_left h]

theorem getD_snoc_len {α : Type} (l : List α) (a : α) (d : α) :
    (l ++ [a]).getD l.length d = a := by
  rw [List.getD_eq_getElem _ _ (by simp)]
  simp

theorem map_range_getD {α : Type} (l : List α) (d : α) :
    (List.range l.length).map (fun i => l.getD i d) = l := by
  induction l with
  | nil => simp
  | cons x xs ih =>
    rw [List.length_cons, List.range_succ_eq_map, List.map_cons, List.map_map]
    simp only [List.getD_cons_zero, Function.comp_def, List.getD_cons_succ]
    rw [ih]


/-! ### Claim 9: a flap sets the bird velocity to the fixed impulse -/

/-- Claim C9: after a flap delivered in the `ready` or `playing` state, the
bird's vertical velocity equals the fixed impulse `FLAP_STRENGTH = -7.5`,
regardless of the velocity before the flap. -/
theorem claim9_flap_sets_fixed_impulse (w h : ℚ) (g : FB.FlappyGame)
    (hs : g.state = FB.FBState.ready ∨ g.state = FB.FBState.playing) :
    (FB.flap w h g).bird.velocity = -15/2 := by
  rcases hs with hs | hs <;> simp [FB.flap, hs, FB.FLAP_STRENGTH]

/-- A concrete bird with prior velocity 999 still leaves a flap with
velocity `-7.5`. -/
theorem claim9_witness :
    (FB.flap 300 400 ⟨FB.FBState.playing, ⟨0, 0, 999, 0, 0⟩, [], 0, 0⟩).bird.velocity = -15/2 :=
  claim9_flap_sets_fixed_impulse 300 400 ⟨FB.FBState.playing, ⟨0, 0, 999, 0, 0⟩, [], 0, 0⟩
    (Or.inr rfl)

/-! ### Claim 6: per-frame elapsed time caps -/

/-- Counterexample to claim C6: the Match-Three countdown is not capped at
50 ms.  With a previous tick at 1000 ms and the current frame at 1400 ms,
the timer drops by the full 0.4 s, which exceeds 0.05 s. -/
theorem claim6_counterexample :
    100 - (M3.m3TimerStep 100 1000 1400).1 = 2/5 ∧ (1/20 : ℚ) < 2/5 := by
  constructor
  · have h1000 : (0 : ℚ) < 1000 := by norm_num
    have hlt : ((1400 : ℚ) - 1000) / 1000 < 1/2 := by norm_num
    simp only [M3.m3TimerStep, if_pos h1000, if_pos hlt]
    norm_num
  · norm_num

/-- Claim C6 as amended: the Space Invaders and Pixel Runner frame loops
clamp the elapsed seconds fed to the simulation to at most 0.05; the
Match-Three countdown instead subtracts the full (uncapped) elapsed time
whenever it is below 0.5 s and subtracts nothing at 0.5 s or more. -/
theorem claim6_amended_dt_handling :
    (∀ last now : ℚ, SI.siDt last now ≤ 1/20)
      ∧ (∀ last now : ℚ, PR.prDt last now ≤ 1/20)
      ∧ (∀ t last now : ℚ, 0 < last → (now - last) / 1000 < 1/2 →
          (M3.m3TimerStep t last now).1 = t - (now - last) / 1000)
      ∧ (∀ t last now : ℚ, 0 < last → 1/2 ≤ (now - last) / 1000 →
          (M3.m3TimerStep t last now).1 = t) := by
  have hmin : ∀ a b : ℚ, jsMin a b ≤ b := by
    intro a b
    unfold jsMin
    split
    · assumption
    · exact le_refl b
  refine ⟨?_, ?_, ?_, ?_⟩
  · intro last now
    unfold SI.siDt
    split
    · exact hmin _ _
    · norm_num
  · intro last now
    unfold PR.prDt
    split
    · exact hmin _ _
    · norm_num
  · intro t last now h1 h2
    simp only [M3.m3TimerStep, if_pos h1, if_pos h2]
  · intro t last now h1 h2
    simp only [M3.m3TimerStep, if_pos h1, if_neg (not_lt.mpr h2)]

/-- Concrete instances of the amended claim C6. -/
theorem claim6_witness :
    SI.siDt 0 99 ≤ 1/20 ∧ PR.prDt 1000 1100 ≤ 1/20
      ∧ (M3.m3TimerStep 10 1 3).1 = 10 - ((3 : ℚ) - 1) / 1000 :=
  ⟨claim6_amended_dt_handling.1 0 99,
    claim6_amended_dt_handling.2.1 1000 1100,
    claim6_amended_dt_handling.2.2.1 10 1 3 (by norm_num) (by norm_num)⟩

/-! ### Claim 7: best-score initialisation on missing or corrupt values -/

/-- Counterexample to claim C7: a stored value that is not parseable as an
integer does not default to zero; `parseInt` yields `NaN` (modelled
`none`), and the initializer returns it unchanged. -/
theorem claim7_counterexample :
    Persist.parseInt10 ['x'] = none ∧ Persist.bestInit (some ['x']) ≠ some 0 := by
  constructor
  · decide
  · decide

/-- Claim C7 as amended: a missing stored value (and an empty stored
string, which is falsy) defaults the best score to zero, but a non-empty
stored value with no parseable integer prefix yields `NaN`, not zero. -/
theorem claim7_amended_best_init :
    Persist.bestInit none = some 0
      ∧ Persist.bestInit (some []) = some 0
      ∧ ∀ s : List Char, s ≠ [] → Persist.parseInt10 s = none →
          Persist.bestInit (some s) = none := by
  refine ⟨rfl, rfl, ?_⟩
  intro s hne hparse
  cases s with
  | nil => exact absurd rfl hne
  | cons a t => simpa [Persist.bestInit] using hparse

/-- Concrete instance of the amended claim C7. -/
theorem claim7_witness : Persist.bestInit (some ['x']) = none :=
  claim7_amended_best_init.2.2 ['x'] (by decide) (by decide)

/-! ### Claim 5: formation reversal exactly at the screen margins -/

/-- Claim C5: a fired formation step reverses the horizontal direction
exactly when some alive alien, moved one further horizontal step in the
current direction, would leave `[4, width-4]`; on a reversal step every
alive alien moves down by the drop distance and no alien moves
horizontally, and on a non-reversal step every alive alien moves
horizontally by one step and not vertically. -/
theorem claim5_formation_reversal (aliens : List SI.Alien) (dir : ℚ) (af : Nat)
    (speed drop width : ℚ) (hdir : dir = 1 ∨ dir = -1) :
    ((SI.formationStep aliens dir af speed drop width).2.1 = -dir
        ↔ ∃ a ∈ aliens, a.alive = true
            ∧ (a.x + dir * speed < 4 ∨ width - 4 < a.x + dir * speed + a.w))
      ∧ (SI.formationStep aliens dir af speed drop width).1.length = aliens.length
      ∧ (∀ i a b, aliens.get? i = some a
          → (SI.formationStep aliens dir af speed drop width).1.get? i = some b
          → a.alive = true
          → ((SI.formationStep aliens dir af speed drop width).2.1 = -dir
              → b.y = a.y + drop ∧ b.x = a.x)
            ∧ ((SI.formationStep aliens dir af speed drop width).2.1 = dir
              → b.x = a.x + dir * speed ∧ b.y = a.y)) := by
  have hne : -dir ≠ dir := by
    rcases hdir with h | h <;> rw [h] <;> norm_num
  have hex : (aliens.any (fun a =>
      a.alive && (decide (a.x + dir * speed < 4)
        || decide (width - 4 < a.x + dir * speed + a.w))) = true)
      ↔ ∃ a ∈ aliens, a.alive = true
          ∧ (a.x + dir * speed < 4 ∨ width - 4 < a.x + dir * speed + a.w) := by
    simp [List.any_eq_true, Bool.and_eq_true, Bool.or_eq_true, decide_eq_true_iff]
  simp only [SI.formationStep]
  by_cases hb : aliens.any (fun a =>
      a.alive && (decide (a.x + dir * speed < 4)
        || decide (width - 4 < a.x + dir * speed + a.w))) = true
  · rw [if_pos hb]
    refine ⟨⟨fun _ => hex.mp hb, fun _ => rfl⟩, by simp, ?_⟩
    intro i a b ha hb2 halive
    rw [List.get?_map, ha, Option.map_some'] at hb2
    injection hb2 with hb3
    refine ⟨fun _ => ?_, fun hcontra => absurd hcontra hne⟩
    rw [← hb3]
    simp [halive]
  · rw [if_neg hb]
    refine ⟨⟨fun hcontra => absurd hcontra.symm hne, fun h2 => absurd (hex.mpr h2) hb⟩,
      by simp, ?_⟩
    intro i a b ha hb2 halive
    rw [List.get?_map, ha, Option.map_some'] at hb2
    injection hb2 with hb3
    refine ⟨fun hcontra => absurd hcontra.symm hne, fun _ => ?_⟩
    rw [← hb3]
    simp [halive]

/-- A concrete one-alien formation, safely inside the margins, applied to
the reversal theorem. -/
theorem claim5_witness :
    ((SI.formationStep [⟨0, 0, 10, 60, 28, 22, true, 0, 0⟩] 1 0 12 20 300).2.1 = -1
        ↔ ∃ a ∈ [(⟨0, 0, 10, 60, 28, 22, true, 0, 0⟩ : SI.Alien)], a.alive = true
            ∧ (a.x + 1 * 12 < 4 ∨ 300 - 4 < a.x + 1 * 12 + a.w))
      ∧ (SI.formationStep [⟨0, 0, 10, 60, 28, 22, true, 0, 0⟩] 1 0 12 20 300).1.length = 1
      ∧ (∀ i a b, ([(⟨0, 0, 10, 60, 28, 22, true, 0, 0⟩ : SI.Alien)]).get? i = some a
          → (SI.formationStep [⟨0, 0, 10, 60, 28, 22, true, 0, 0⟩] 1 0 12 20 300).1.get? i = some b
          → a.alive = true
          → ((SI.formationStep [⟨0, 0, 10, 60, 28, 22, true, 0, 0⟩] 1 0 12 20 300).2.1 = -1
              → b.y = a.y + 20 ∧ b.x = a.x)
            ∧ ((SI.formationStep [⟨0, 0, 10, 60, 28, 22, true, 0, 0⟩] 1 0 12 20 300).2.1 = 1
              → b.x = a.x + 1 * 12 ∧ b.y = a.y)) :=
  claim5_formation_reversal [⟨0, 0, 10, 60, 28, 22, true, 0, 0⟩] 1 0 12 20 300 (Or.inl rfl)

/-! ### Claim 4: the snake body never acquires duplicate coordinates -/

theorem tickMove_nodup (s : SN.GameSettings) (rng : Nat → Nat) (k : Nat)
    (st : SN.SnakeState) (nh : SN.Point) (h : st.snake.Nodup) :
    ((SN.tickMove s rng k st nh).snake).Nodup := by
  simp only [SN.tickMove]
  split
  · split
    · exact h
    · next hmem => exact List.nodup_cons.mpr ⟨hmem, h⟩
  · split
    · exact h
    · next hmem =>
      cases hsn : st.snake with
      | nil => simp [hsn]
      | cons a l =>
        rw [hsn] at hmem h
        cases l with
        | nil => simp
        | cons a2 l2 =>
          have hstep : (nh :: a :: a2 :: l2).dropLast = nh :: (a :: a2 :: l2).dropLast := rfl
          rw [hstep]
          exact List.nodup_cons.mpr
            ⟨hmem, List.Nodup.sublist (List.dropLast_sublist (a :: a2 :: l2)) h⟩

/-- Claim C4: one Snake tick preserves distinctness of the body cells
(self-collision is checked against the body minus the retracting tail,
or the whole body when the move eats the food). -/
theorem claim4_tick_preserves_nodup (s : SN.GameSettings) (rng : Nat → Nat) (k : Nat)
    (st : SN.SnakeState) (h : st.snake.Nodup) :
    ((SN.tick s rng k st).snake).Nodup := by
  unfold SN.tick
  by_cases hplay : st.state ≠ SN.GState.playing
  · rw [if_pos hplay]
    exact h
  · rw [if_neg hplay]
    by_cases htel : s.wallTeleport = true
    · rw [if_pos htel]
      exact tickMove_nodup s rng k _ _ h
    · rw [if_neg htel]
      split
      · exact h
      · exact tickMove_nodup s rng k _ _ h

/-- A concrete three-segment snake moving right keeps distinct body cells
through a tick. -/
theorem claim4_witness :
    ((SN.tick ⟨12, 20, false⟩ (fun _ => 0) 0
      ⟨SN.GState.playing, [⟨10, 10⟩, ⟨9, 10⟩, ⟨8, 10⟩],
        SN.Direction.right, SN.Direction.right, ⟨0, 0⟩, 0⟩).snake).Nodup :=
  claim4_tick_preserves_nodup ⟨12, 20, false⟩ (fun _ => 0) 0
    ⟨SN.GState.playing, [⟨10, 10⟩, ⟨9, 10⟩, ⟨8, 10⟩],
      SN.Direction.right, SN.Direction.right, ⟨0, 0⟩, 0⟩ (by decide)

/-! ### Claim 3: a matchless swap is fully undone -/

namespace M3

theorem length_setCell (g : Grid) (r c : Nat) (v : Int) :
    (setCell g r c v).length = g.length := by
  simp [setCell]

theorem rowLen_setCell (g : Grid) (r c : Nat) (v : Int) (r' : Nat) :
    ((setCell g r c v).getD r' []).length = (g.getD r' []).length := by
  unfold setCell
  rw [getD_set]
  split
  · next hcond =>
    rw [List.length_set, hcond.1]
  · rfl

theorem cellAt_setCell (g : Grid) (r c : Nat) (v : Int) (r' c' : Nat)
    (hr : r < g.length) (hc : c < (g.getD r []).length) :
    cellAt (setCell g r c v) r' c' =
      if r = r' ∧ c = c' then v else cellAt g r' c' := by
  unfold cellAt setCell
  rw [getD_set]
  by_cases h1 : r = r' ∧ r < g.length
  · rw [if_pos h1, getD_set]
    by_cases h2 : c = c' ∧ c < (g.getD r []).length
    · rw [if_pos h2, if_pos ⟨h1.1, h2.1⟩]
    · have hcc : ¬c = c' := fun hx => h2 ⟨hx, hc⟩
      rw [if_neg h2, if_neg (fun hx => hcc hx.2), h1.1]
  · have hrr : ¬r = r' := fun hx => h1 ⟨hx, hr⟩
    rw [if_neg h1, if_neg (fun hx => hrr hx.1)]

theorem grid_ext (g1 g2 : Grid) (hlen : g1.length = g2.length)
    (hrow : ∀ r, (g1.getD r []).length = (g2.getD r []).length)
    (hcell : ∀ r c, cellAt g1 r c = cellAt g2 r c) : g1 = g2 := by
  apply List.ext_get hlen
  intro r h1 h2
  have hr1 : g1.getD r [] = g1.get ⟨r, h1⟩ := List.getD_eq_get g1 [] h1
  have hr2 : g2.getD r [] = g2.get ⟨r, h2⟩ := List.getD_eq_get g2 [] h2
  apply List.ext_get
  · rw [← hr1, ← hr2]
    exact hrow r
  · intro c hc1 hc2
    have e1 : (g1.get ⟨r, h1⟩).getD c (-1) = (g1.get ⟨r, h1⟩).get ⟨c, hc1⟩ :=
      List.getD_eq_get _ _ hc1
    have e2 : (g2.get ⟨r, h2⟩).getD c (-1) = (g2.get ⟨r, h2⟩).get ⟨c, hc2⟩ :=
      List.getD_eq_get _ _ hc2
    have hcc := hcell r c
    unfold cellAt at hcc
    rw [hr1, hr2] at hcc
    rw [← e1, ← e2]
    exact hcc

theorem length_applySwap (g : Grid) (a b : CellPos) :
    (applySwap g a b).length = g.length := by
  unfold applySwap
  rw [length_setCell, length_setCell]

theorem rowLen_applySwap (g : Grid) (a b : CellPos) (r' : Nat) :
    ((applySwap g a b).getD r' []).length = (g.getD r' []).length := by
  unfold applySwap
  rw [rowLen_setCell, rowLen_setCell]

theorem cellAt_applySwap (g : Grid) (a b : CellPos) (r' c' : Nat)
    (har : a.row < g.length) (hac : a.col < (g.getD a.row []).length)
    (hbr : b.row < g.length) (hbc : b.col < (g.getD b.row []).length) :
    cellAt (applySwap g a b) r' c' =
      if b.row = r' ∧ b.col = c' then cellAt g a.row a.col
      else if a.row = r' ∧ a.col = c' then cellAt g b.row b.col
      else cellAt g r' c' := by
  unfold applySwap
  rw [cellAt_setCell _ _ _ _ _ _
    (by rw [length_setCell]; exact hbr)
    (by rw [rowLen_setCell]; exact hbc)]
  rw [cellAt_setCell _ _ _ _ _ _ har hac]

/-- Swapping the same two in-bounds cells twice restores the grid. -/
theorem applySwap_applySwap (g : Grid) (a b : CellPos)
    (har : a.row < g.length) (hac : a.col < (g.getD a.row []).length)
    (hbr : b.row < g.length) (hbc : b.col < (g.getD b.row []).length) :
    applySwap (applySwap g a b) a b = g := by
  have har2 : a.row < (applySwap g a b).length := by
    rw [length_applySwap]; exact har
  have hac2 : a.col < ((applySwap g a b).getD a.row []).length := by
    rw [rowLen_applySwap]; exact hac
  have hbr2 : b.row < (applySwap g a b).length := by
    rw [length_applySwap]; exact hbr
  have hbc2 : b.col < ((applySwap g a b).getD b.row []).length := by
    rw [rowLen_applySwap]; exact hbc
  apply grid_ext
  · rw [length_applySwap, length_applySwap]
  · intro r
    rw [rowLen_applySwap, rowLen_applySwap]
  · intro r c
    rw [cellAt_applySwap _ _ _ _ _ har2 hac2 hbr2 hbc2,
      cellAt_applySwap _ _ _ _ _ har hac hbr hbc,
      cellAt_applySwap _ _ _ _ _ har hac hbr hbc,
      cellAt_applySwap _ _ _ _ _ har hac hbr hbc]
    by_cases hB : b.row = r ∧ b.col = c
    · rw [if_pos hB]
      by_cases hBA : b.row = a.row ∧ b.col = a.col
      · rw [if_pos hBA, ← hB.1, ← hB.2, hBA.1, hBA.2]
      · rw [if_neg hBA, if_pos ⟨rfl, rfl⟩, ← hB.1, ← hB.2]
    · rw [if_neg hB]
      by_cases hA : a.row = r ∧ a.col = c
      · rw [if_pos hA, if_pos ⟨rfl, rfl⟩, ← hA.1, ← hA.2]
      · rw [if_neg hA, if_neg hB, if_neg hA]

end M3

/-- Claim C3: when a player swap of two in-bounds adjacent cells produces
no match, the `swapping` transition reverts the grid and enters
`swapping-back`, and completing `swapping-back` returns to `idle` with the
grid identical, cell for cell, to the grid before the swap. -/
theorem claim3_failed_swap_restores_grid (game : M3.M3Game) (n : Nat)
    (hlen : game.grid.length = n)
    (hrows : ∀ row ∈ game.grid, row.length = n)
    (hfr : game.swapFrom.row < n) (hfc : game.swapFrom.col < n)
    (htr : game.swapTo.row < n) (htc : game.swapTo.col < n)
    (hadj : ((game.swapFrom.row : Int) - game.swapTo.row).natAbs
        + ((game.swapFrom.col : Int) - game.swapTo.col).natAbs = 1)
    (hnone : M3.findMatches (M3.applySwap game.grid game.swapFrom game.swapTo) = []) :
    (M3.swapResolve game).animState = M3.AnimState.swappingBack
      ∧ (M3.swapBackResolve (M3.swapResolve game)).animState = M3.AnimState.idle
      ∧ (M3.swapBackResolve (M3.swapResolve game)).grid = game.grid := by
  have hrowlen : ∀ r, r < n → (game.grid.getD r []).length = n := by
    intro r hr
    rw [List.getD_eq_getElem _ _ (by rw [hlen]; exact hr)]
    exact hrows _ (List.getElem_mem _)
  have hdouble := M3.applySwap_applySwap game.grid game.swapFrom game.swapTo
    (by rw [hlen]; exact hfr) (by rw [hrowlen _ hfr]; exact hfc)
    (by rw [hlen]; exact htr) (by rw [hrowlen _ htr]; exact htc)
  have hres : M3.swapResolve game =
      { game with
        grid := M3.applySwap (M3.applySwap game.grid game.swapFrom game.swapTo)
            game.swapFrom game.swapTo
        animState := M3.AnimState.swappingBack } := by
    simp only [M3.swapResolve]
    rw [hnone]
    simp
  refine ⟨?_, ?_, ?_⟩
  · rw [hres]
  · rw [hres]
    rfl
  · rw [hres]
    simpa [M3.swapBackResolve] using hdouble

/-- A concrete failed swap on a two-by-two board, run through the theorem. -/
theorem claim3_witness :
    (M3.swapResolve ⟨[[0, 1], [1, 0]], 0, 0, 0, M3.AnimState.swapping,
        ⟨0, 0⟩, ⟨0, 1⟩, [], [], none⟩).animState = M3.AnimState.swappingBack
      ∧ (M3.swapBackResolve (M3.swapResolve ⟨[[0, 1], [1, 0]], 0, 0, 0, M3.AnimState.swapping,
        ⟨0, 0⟩, ⟨0, 1⟩, [], [], none⟩)).animState = M3.AnimState.idle
      ∧ (M3.swapBackResolve (M3.swapResolve ⟨[[0, 1], [1, 0]], 0, 0, 0, M3.AnimState.swapping,
        ⟨0, 0⟩, ⟨0, 1⟩, [], [], none⟩)).grid
        = (⟨[[0, 1], [1, 0]], 0, 0, 0, M3.AnimState.swapping,
          ⟨0, 0⟩, ⟨0, 1⟩, [], [], none⟩ : M3.M3Game).grid :=
  claim3_failed_swap_restores_grid
    ⟨[[0, 1], [1, 0]], 0, 0, 0, M3.AnimState.swapping, ⟨0, 0⟩, ⟨0, 1⟩, [], [], none⟩ 2
    (by decide) (by decide) (by decide) (by decide) (by decide) (by decide)
    (by decide) (by decide)

/-! ### Claim 8: platform generation always covers the lookahead region -/

namespace PR

theorem maxRight_snoc (ps : List Platform) (p : Platform) :
    p.x + p.w ≤ maxRight (ps ++ [p]) := by
  unfold maxRight
  rw [List.foldl_append]
  simp only [List.foldl_cons, List.foldl_nil]
  split
  · exact le_refl _
  · next hlt => exact le_of_not_lt hlt

theorem genIter_edge (s : PRSettings) (rng : Nat → ℚ) (h groundY : ℚ) (st : GenState) :
    (genIter s rng h groundY st).lastRight ≤ maxRight (genIter s rng h groundY st).platforms := by
  simp only [genIter]
  exact maxRight_snoc _ _

theorem initIter_edge (s : PRSettings) (rng : Nat → ℚ) (h groundY : ℚ) (st : GenState) :
    (initIter s rng h groundY st).lastRight
      ≤ maxRight (initIter s rng h groundY st).platforms := by
  simp only [initIter]
  exact maxRight_snoc _ ⟨st.lastRight + rand rng st.k s.gapMin s.gapMax, _, _⟩

theorem genLoop_edge (s : PRSettings) (rng : Nat → ℚ) (w h groundY : ℚ) :
    ∀ fuel (st res : GenState), st.lastRight ≤ maxRight st.platforms →
      genLoop s rng w h groundY fuel st = some res →
      w + SPAWN_AHEAD ≤ res.lastRight ∧ res.lastRight ≤ maxRight res.platforms := by
  intro fuel
  induction fuel with
  | zero =>
    intro st res hinv hres
    unfold genLoop at hres
    split at hres
    · exact absurd hres (by simp)
    · next hge =>
      injection hres with hres
      rw [← hres]
      exact ⟨le_of_not_lt hge, hinv⟩
  | succ fuel ih =>
    intro st res hinv hres
    unfold genLoop at hres
    split at hres
    · exact ih _ _ (genIter_edge s rng h groundY st) hres
    · next hge =>
      injection hres with hres
      rw [← hres]
      exact ⟨le_of_not_lt hge, hinv⟩

theorem initLoop_edge (s : PRSettings) (rng : Nat → ℚ) (w h groundY : ℚ) :
    ∀ fuel (st res : GenState), st.lastRight ≤ maxRight st.platforms →
      initLoop s rng w h groundY fuel st = some res →
      w + SPAWN_AHEAD ≤ res.lastRight ∧ res.lastRight ≤ maxRight res.platforms := by
  intro fuel
  induction fuel with
  | zero =>
    intro st res hinv hres
    unfold initLoop at hres
    split at hres
    · exact absurd hres (by simp)
    · next hge =>
      injection hres with hres
      rw [← hres]
      exact ⟨le_of_not_lt hge, hinv⟩
  | succ fuel ih =>
    intro st res hinv hres
    unfold initLoop at hres
    split at hres
    · exact ih _ _ (initIter_edge s rng h groundY st) hres
    · next hge =>
      injection hres with hres
      rw [← hres]
      exact ⟨le_of_not_lt hge, hinv⟩

end PR

/-- Claim C8: after any platform generation pass that completes (the
initial pass of `initGame` and the per-frame pass), the rightmost edge
over the generated platforms is at least `width + SPAWN_AHEAD`. -/
theorem claim8_generation_covers_lookahead :
    (∀ (s : PR.PRSettings) (rng : Nat → ℚ) (w h groundY : ℚ) (fuel k : Nat)
      (res : PR.GenState), PR.initPlatforms s rng w h groundY fuel k = some res →
        w + PR.SPAWN_AHEAD ≤ PR.maxRight res.platforms)
      ∧ (∀ (s : PR.PRSettings) (rng : Nat → ℚ) (w h groundY : ℚ) (fuel : Nat)
        (ps : List PR.Platform) (cs : List PR.Coin) (os : List PR.Obstacle) (k : Nat)
        (res : PR.GenState), PR.genPass s rng w h groundY fuel ps cs os k = some res →
          w + PR.SPAWN_AHEAD ≤ PR.maxRight res.platforms) := by
  constructor
  · intro s rng w h groundY fuel k res hres
    unfold PR.initPlatforms at hres
    have hstart : (300 : ℚ) ≤ PR.maxRight [⟨0, groundY, 300⟩] := by
      simp only [PR.maxRight, List.foldl_cons, List.foldl_nil]
      norm_num
    have hx := PR.initLoop_edge s rng w h groundY fuel
      ⟨[⟨0, groundY, 300⟩], [], [], 300, k⟩ res hstart hres
    exact le_trans hx.1 hx.2
  · intro s rng w h groundY fuel ps cs os k res hres
    unfold PR.genPass at hres
    have hx := PR.genLoop_edge s rng w h groundY fuel
      ⟨ps, cs, os, PR.maxRight ps, k⟩ res (le_refl _) hres
    exact le_trans hx.1 hx.2

/-- A frame pass over a single 600 px platform with a 100 px canvas
already covers the lookahead and exits at once. -/
theorem claim8_witness :
    (100 : ℚ) + PR.SPAWN_AHEAD
      ≤ PR.maxRight (⟨[⟨0, 0, 600⟩], [], [], 600, 0⟩ : PR.GenState).platforms :=
  claim8_generation_covers_lookahead.2 ⟨230, 5/2, 55, 120, 90, 200, 1/4, 2/5, true⟩
    (fun _ => 0) 100 300 200 1 [⟨0, 0, 600⟩] [] [] 0 ⟨[⟨0, 0, 600⟩], [], [], 600, 0⟩
    (by norm_num [PR.genPass, PR.genLoop, PR.maxRight, PR.SPAWN_AHEAD, List.foldl])

/-! ### Claim 10: gravity compacts columns and fills with fresh gems -/

theorem getD_map_range {α : Type} (f : Nat → α) (n r : Nat) (d : α) (h : r < n) :
    ((List.range n).map f).getD r d = f r := by
  rw [List.getD_eq_getElem _ _ (by simpa using h), List.getElem_map, List.getElem_range]

namespace M3

theorem filterMap_range_getD (col : List Int) :
    (List.range col.length).filterMap
        (fun r => if 0 ≤ col.getD r (-1) then some (col.getD r (-1)) else none)
      = col.filter (fun v => decide (0 ≤ v)) := by
  induction col with
  | nil => simp
  | cons x xs ih =>
    by_cases hx : (0 : Int) ≤ x
    · simp only [List.length_cons, List.range_succ_eq_map, List.filterMap_cons,
        List.getD_cons_zero, if_pos hx, List.filterMap_map, Function.comp_def,
        List.getD_cons_succ, List.filter_cons]
      rw [if_pos (by simpa using hx)]
      exact congrArg (x :: ·) ih
    · simp only [List.length_cons, List.range_succ_eq_map, List.filterMap_cons,
        List.getD_cons_zero, if_neg hx, List.filterMap_map, Function.comp_def,
        List.getD_cons_succ, List.filter_cons]
      rw [if_neg (by simpa using hx)]
      exact ih

theorem existingOf_snd_reverse (col : List Int) (n : Nat) (hlen : col.length = n) :
    ((existingOf col n).map (fun p => p.2)).reverse = col.filter (fun v => decide (0 ≤ v)) := by
  simp only [existingOf]
  rw [List.map_filterMap, List.filterMap_reverse, List.reverse_reverse]
  have hfun : (fun r => (if 0 ≤ col.getD r (-1)
        then some (r, col.getD r (-1)) else none).map (fun p => p.2))
      = fun r => if 0 ≤ col.getD r (-1) then some (col.getD r (-1)) else none := by
    funext r
    split
    · rfl
    · rfl
  rw [hfun, ← hlen, filterMap_range_getD]

theorem existingOf_length_le (col : List Int) (n : Nat) : (existingOf col n).length ≤ n := by
  simp only [existingOf]
  calc ((List.range n).reverse.filterMap _).length
      ≤ ((List.range n).reverse).length := List.length_filterMap_le _ _
    _ = n := by simp

theorem existingOf_length_eq (col : List Int) (n : Nat) (hlen : col.length = n) :
    (existingOf col n).length = (col.filter (fun v => decide (0 ≤ v))).length := by
  have h := congrArg List.length (existingOf_snd_reverse col n hlen)
  simpa using h

theorem gravityColumn_eq (types : Nat) (rng : Nat → Nat) (k n : Nat) (col : List Int)
    (hlen : col.length = n) :
    gravityColumn types rng k n col
      = ((List.range (n - (existingOf col n).length)).map
          (fun i => randomGem rng (k+i) types)).reverse
        ++ col.filter (fun v => decide (0 ≤ v)) := by
  simp only [gravityColumn]
  rw [existingOf_snd_reverse col n hlen]

theorem gravityColumn_length (types : Nat) (rng : Nat → Nat) (k n : Nat) (col : List Int)
    (hlen : col.length = n) : (gravityColumn types rng k n col).length = n := by
  simp only [gravityColumn]
  simp only [List.length_append, List.length_reverse, List.length_map, List.length_range]
  have h1 := existingOf_length_le col n
  have h2 := existingOf_length_eq col n hlen
  have h3 : (col.filter (fun v => decide (0 ≤ v))).length ≤ col.length :=
    List.length_filter_le _ _
  omega

theorem randomGem_nonneg (rng : Nat → Nat) (k n : Nat) : 0 ≤ randomGem rng k n := by
  unfold randomGem
  exact Int.ofNat_nonneg _

theorem randomGem_lt (rng : Nat → Nat) (k n : Nat) (h : 0 < n) : randomGem rng k n < n := by
  unfold randomGem
  exact_mod_cast Nat.mod_lt _ h

theorem gravityCols_length (g : Grid) (types : Nat) (rng : Nat → Nat) (n : Nat) :
    ∀ cs k, (gravityCols g types rng n cs k).length = cs.length := by
  intro cs
  induction cs with
  | nil => intro k; rfl
  | cons c0 rest ih =>
    intro k
    simp only [gravityCols, List.length_cons]
    rw [ih]

theorem gravityCols_get? (g : Grid) (types : Nat) (rng : Nat → Nat) (n : Nat) :
    ∀ cs k i c, cs.get? i = some c →
      ∃ k2, (gravityCols g types rng n cs k).get? i
        = some (gravityColumn types rng k2 n (columnOf g c),
            columnFalls c types rng k2 n (columnOf g c)) := by
  intro cs
  induction cs with
  | nil =>
    intro k i c h
    simp at h
  | cons c0 rest ih =>
    intro k i c h
    cases i with
    | zero =>
      injection h with h
      subst h
      exact ⟨k, rfl⟩
    | succ i2 =>
      rw [List.get?_cons_succ] at h
      obtain ⟨k2, hk⟩ := ih (k + (n - (existingOf (columnOf g c0) n).length)) i2 c h
      exact ⟨k2, by simpa [gravityCols] using hk⟩

end M3

/-- Claim C10: for an `n` by `n` grid possibly containing empty (`-1`)
cells, `applyGravity` returns an `n` by `n` grid with no empty cell, in
which every column consists of that column's surviving gems packed at the
bottom in their original top-to-bottom order, below freshly generated gem
values in `[0, gemTypes)`. -/
theorem claim10_applyGravity_packs_columns (g : M3.Grid) (n types : Nat)
    (rng : Nat → Nat) (k : Nat)
    (hn : g.length = n) (hrows : ∀ row ∈ g, row.length = n) (htypes : 0 < types) :
    (M3.applyGravity g types rng k).1.length = n
      ∧ (∀ row ∈ (M3.applyGravity g types rng k).1, row.length = n)
      ∧ (∀ r c, r < n → c < n → 0 ≤ M3.cellAt (M3.applyGravity g types rng k).1 r c)
      ∧ (∀ c, c < n → ∃ fresh : List Int,
          (∀ v ∈ fresh, 0 ≤ v ∧ v < types)
          ∧ fresh.length = n - ((M3.columnOf g c).filter (fun v => decide (0 ≤ v))).length
          ∧ M3.columnOf (M3.applyGravity g types rng k).1 c
            = fresh ++ (M3.columnOf g c).filter (fun v => decide (0 ≤ v))) := by
  have hcolsLen : (M3.gravityCols g types rng n (List.range n) k).length = n := by
    rw [M3.gravityCols_length]
    simp
  have hgrid : (M3.applyGravity g types rng k).1
      = (List.range n).map (fun r =>
          (M3.gravityCols g types rng n (List.range n) k).map (fun cd => cd.1.getD r (-1))) := by
    simp only [M3.applyGravity]
    rw [hn]
  have hlen1 : (M3.applyGravity g types rng k).1.length = n := by
    rw [hgrid]
    simp
  have hrows1 : ∀ row ∈ (M3.applyGravity g types rng k).1, row.length = n := by
    rw [hgrid]
    intro row hrow
    obtain ⟨r, hr, hrw⟩ := List.mem_map.mp hrow
    rw [← hrw, List.length_map]
    exact hcolsLen
  have hcolg : ∀ c, (M3.columnOf g c).length = n := by
    intro c
    rw [M3.columnOf, List.length_map, hn]
  have hcol : ∀ c, c < n → ∃ k2,
      M3.columnOf (M3.applyGravity g types rng k).1 c
        = M3.gravityColumn types rng k2 n (M3.columnOf g c) := by
    intro c hc
    obtain ⟨k2, hk2⟩ := M3.gravityCols_get? g types rng n (List.range n) k c c
      (by rw [List.get?_range hc])
    refine ⟨k2, ?_⟩
    have hgetD : (M3.gravityCols g types rng n (List.range n) k).getD c ([], [])
        = (M3.gravityColumn types rng k2 n (M3.columnOf g c),
            M3.columnFalls c types rng k2 n (M3.columnOf g c)) := by
      rw [List.getD_eq_getD_get?, hk2]
      rfl
    have hinner : ∀ r,
        ((M3.gravityCols g types rng n (List.range n) k).map
          (fun cd => cd.1.getD r (-1))).getD c (-1)
        = (M3.gravityColumn types rng k2 n (M3.columnOf g c)).getD r (-1) := by
      intro r
      rw [List.getD_eq_getElem _ _ (by rw [List.length_map, hcolsLen]; exact hc),
        List.getElem_map]
      rw [← List.getD_eq_getElem _ ([], []) (by rw [hcolsLen]; exact hc), hgetD]
    have hClen : (M3.gravityColumn types rng k2 n (M3.columnOf g c)).length = n :=
      M3.gravityColumn_length types rng k2 n _ (hcolg c)
    rw [hgrid]
    unfold M3.columnOf
    rw [List.map_map]
    have hmapeq : (List.range n).map
        ((fun row => row.getD c (-1)) ∘ (fun r =>
          (M3.gravityCols g types rng n (List.range n) k).map (fun cd => cd.1.getD r (-1))))
        = (List.range n).map
          (fun r => (M3.gravityColumn types rng k2 n (M3.columnOf g c)).getD r (-1)) := by
      apply List.map_congr_left
      intro r hr
      exact hinner r
    have hfinal : (List.range n).map
        (fun r => (M3.gravityColumn types rng k2 n (M3.columnOf g c)).getD r (-1))
        = M3.gravityColumn types rng k2 n (M3.columnOf g c) := by
      have h0 := map_range_getD (M3.gravityColumn types rng k2 n (M3.columnOf g c)) (-1)
      rw [hClen] at h0
      exact h0
    rw [hmapeq]
    exact hfinal
  have hpart4 : ∀ c, c < n → ∃ fresh : List Int,
      (∀ v ∈ fresh, 0 ≤ v ∧ v < types)
      ∧ fresh.length = n - ((M3.columnOf g c).filter (fun v => decide (0 ≤ v))).length
      ∧ M3.columnOf (M3.applyGravity g types rng k).1 c
        = fresh ++ (M3.columnOf g c).filter (fun v => decide (0 ≤ v)) := by
    intro c hc
    obtain ⟨k2, hk2⟩ := hcol c hc
    refine ⟨((List.range (n - (M3.existingOf (M3.columnOf g c) n).length)).map
      (fun i => M3.randomGem rng (k2+i) types)).reverse, ?_, ?_, ?_⟩
    · intro v hv
      rw [List.mem_reverse] at hv
      obtain ⟨i, hi, hiv⟩ := List.mem_map.mp hv
      rw [← hiv]
      exact ⟨M3.randomGem_nonneg rng (k2+i) types, M3.randomGem_lt rng (k2+i) types htypes⟩
    · rw [List.length_reverse, List.length_map, List.length_range,
        M3.existingOf_length_eq _ _ (hcolg c)]
    · rw [hk2, M3.gravityColumn_eq types rng k2 n _ (hcolg c)]
  refine ⟨hlen1, hrows1, ?_, hpart4⟩
  intro r c hr hc
  have hcellcol : M3.cellAt (M3.applyGravity g types rng k).1 r c
      = (M3.columnOf (M3.applyGravity g types rng k).1 c).getD r (-1) := by
    unfold M3.cellAt M3.columnOf
    rw [List.getD_eq_getElem ((M3.applyGravity g types rng k).1.map _) (-1)
        (by rw [List.length_map, hlen1]; exact hr),
      List.getElem_map,
      List.getD_eq_getElem _ [] (by rw [hlen1]; exact hr)]
  obtain ⟨fresh, hfresh, hflen, hfeq⟩ := hpart4 c hc
  have hctot : (M3.columnOf (M3.applyGravity g types rng k).1 c).length = n := by
    rw [M3.columnOf, List.length_map, hlen1]
  rw [hfeq] at hctot
  rw [hcellcol, hfeq]
  have hmem : (fresh ++ (M3.columnOf g c).filter (fun v => decide (0 ≤ v))).getD r (-1)
      ∈ fresh ++ (M3.columnOf g c).filter (fun v => decide (0 ≤ v)) := by
    rw [List.getD_eq_getElem _ (-1) (by rw [hctot]; exact hr)]
    exact List.getElem_mem _
  rcases List.mem_append.mp hmem with hmf | hmf
  · exact (hfresh _ hmf).1
  · have := List.mem_filter.mp hmf
    simpa using this.2

/-- Gravity on a concrete two-by-two grid with two holes, run through the
column-packing theorem. -/
theorem claim10_witness :
    (M3.applyGravity ([[-1, 0], [1, -1]] : M3.Grid) 2 (fun _ => 0) 0).1.length = 2
      ∧ (∀ row ∈ (M3.applyGravity ([[-1, 0], [1, -1]] : M3.Grid) 2 (fun _ => 0) 0).1,
          row.length = 2)
      ∧ (∀ r c, r < 2 → c < 2 →
          0 ≤ M3.cellAt (M3.applyGravity ([[-1, 0], [1, -1]] : M3.Grid) 2 (fun _ => 0) 0).1 r c)
      ∧ (∀ c, c < 2 → ∃ fresh : List Int,
          (∀ v ∈ fresh, 0 ≤ v ∧ v < 2)
          ∧ fresh.length
            = 2 - ((M3.columnOf ([[-1, 0], [1, -1]] : M3.Grid) c).filter
              (fun v => decide (0 ≤ v))).length
          ∧ M3.columnOf (M3.applyGravity ([[-1, 0], [1, -1]] : M3.Grid) 2 (fun _ => 0) 0).1 c
            = fresh ++ (M3.columnOf ([[-1, 0], [1, -1]] : M3.Grid) c).filter
              (fun v => decide (0 ≤ v))) :=
  claim10_applyGravity_packs_columns ([[-1, 0], [1, -1]] : M3.Grid) 2 2 (fun _ => 0) 0
    (by decide) (by decide) (by decide)

/-! ### Claim 1: freshly created boards have no matches -/

namespace M3

theorem runEndH_ge (g : Grid) (r : Nat) (t : Int) :
    ∀ k e, e ≤ runEndH g r t k e := by
  intro k
  induction k with
  | zero => intro e; exact le_refl e
  | succ k ih =>
    intro e
    unfold runEndH
    split
    · exact le_trans (Nat.le_succ e) (ih (e+1))
    · exact le_refl e

theorem runEndH_le_add (g : Grid) (r : Nat) (t : Int) :
    ∀ k e, runEndH g r t k e ≤ e + k := by
  intro k
  induction k with
  | zero => intro e; exact Nat.le_add_right e 0
  | succ k ih =>
    intro e
    unfold runEndH
    split
    · exact le_trans (ih (e+1)) (by omega)
    · omega

theorem runEndH_mem (g : Grid) (r : Nat) (t : Int) :
    ∀ k e i, e ≤ i → i < runEndH g r t k e → cellAt g r i = t := by
  intro k
  induction k with
  | zero =>
    intro e i h1 h2
    unfold runEndH at h2
    omega
  | succ k ih =>
    intro e i h1 h2
    unfold runEndH at h2
    split at h2
    · next hcell =>
      rcases Nat.eq_or_lt_of_le h1 with heq | hlt
      · rw [heq] at hcell
        exact hcell
      · exact ih (e+1) i hlt h2
    · omega

theorem runEndV_ge (g : Grid) (c : Nat) (t : Int) :
    ∀ k e, e ≤ runEndV g c t k e := by
  intro k
  induction k with
  | zero => intro e; exact le_refl e
  | succ k ih =>
    intro e
    unfold runEndV
    split
    · exact le_trans (Nat.le_succ e) (ih (e+1))
    · exact le_refl e

theorem runEndV_le_add (g : Grid) (c : Nat) (t : Int) :
    ∀ k e, runEndV g c t k e ≤ e + k := by
  intro k
  induction k with
  | zero => intro e; exact Nat.le_add_right e 0
  | succ k ih =>
    intro e
    unfold runEndV
    split
    · exact le_trans (ih (e+1)) (by omega)
    · omega

theorem runEndV_mem (g : Grid) (c : Nat) (t : Int) :
    ∀ k e i, e ≤ i → i < runEndV g c t k e → cellAt g i c = t := by
  intro k
  induction k with
  | zero =>
    intro e i h1 h2
    unfold runEndV at h2
    omega
  | succ k ih =>
    intro e i h1 h2
    unfold runEndV at h2
    split at h2
    · next hcell =>
      rcases Nat.eq_or_lt_of_le h1 with heq | hlt
      · rw [heq] at hcell
        exact hcell
      · exact ih (e+1) i hlt h2
    · omega

theorem scanRow_eq_nil (g : Grid) (n r : Nat)
    (hrow : ∀ c, c + 2 < n →
      ¬(cellAt g r c = cellAt g r (c+1) ∧ cellAt g r (c+1) = cellAt g r (c+2))) :
    ∀ fuel c, scanRow g n r fuel c = [] := by
  intro fuel
  induction fuel with
  | zero => intro c; rfl
  | succ fuel ih =>
    intro c
    simp only [scanRow]
    split
    · rfl
    · next hc =>
      split
      · exact ih (c+1)
      · next hpos =>
        have hge := runEndH_ge g r (cellAt g r c) (n - (c+1)) (c+1)
        have hle := runEndH_le_add g r (cellAt g r c) (n - (c+1)) (c+1)
        have hlen : runEndH g r (cellAt g r c) (n - (c+1)) (c+1) ≤ n := by omega
        split
        · next hbig =>
          exfalso
          have h1 : cellAt g r (c+1) = cellAt g r c :=
            runEndH_mem g r (cellAt g r c) (n - (c+1)) (c+1) (c+1) (le_refl _) (by omega)
          have h2 : cellAt g r (c+2) = cellAt g r c :=
            runEndH_mem g r (cellAt g r c) (n - (c+1)) (c+1) (c+2) (by omega) (by omega)
          exact hrow c (by omega) ⟨h1.symm, by rw [h1, h2]⟩
        · exact ih _

theorem scanCol_eq_nil (g : Grid) (n c : Nat)
    (hcol : ∀ r, r + 2 < n →
      ¬(cellAt g r c = cellAt g (r+1) c ∧ cellAt g (r+1) c = cellAt g (r+2) c)) :
    ∀ fuel r, scanCol g n c fuel r = [] := by
  intro fuel
  induction fuel with
  | zero => intro r; rfl
  | succ fuel ih =>
    intro r
    simp only [scanCol]
    split
    · rfl
    · next hr =>
      split
      · exact ih (r+1)
      · next hpos =>
        have hge := runEndV_ge g c (cellAt g r c) (n - (r+1)) (r+1)
        have hle := runEndV_le_add g c (cellAt g r c) (n - (r+1)) (r+1)
        have hlen : runEndV g c (cellAt g r c) (n - (r+1)) (r+1) ≤ n := by omega
        split
        · next hbig =>
          exfalso
          have h1 : cellAt g (r+1) c = cellAt g r c :=
            runEndV_mem g c (cellAt g r c) (n - (r+1)) (r+1) (r+1) (le_refl _) (by omega)
          have h2 : cellAt g (r+2) c = cellAt g r c :=
            runEndV_mem g c (cellAt g r c) (n - (r+1)) (r+1) (r+2) (by omega) (by omega)
          exact hcol r (by omega) ⟨h1.symm, by rw [h1, h2]⟩
        · exact ih _

theorem findMatches_eq_nil (g : Grid) (n : Nat) (hn : g.length = n)
    (h : noRun3 g n) : findMatches g = [] := by
  unfold findMatches
  rw [hn, List.append_eq_nil]
  constructor
  · rw [List.flatMap_eq_nil_iff]
    intro r hr
    exact scanRow_eq_nil g n r (fun c hc => h.1 r c (List.mem_range.mp hr) hc) n 0
  · rw [List.flatMap_eq_nil_iff]
    intro c hc
    exact scanCol_eq_nil g n c (fun r hr => h.2 r c hr (List.mem_range.mp hc)) n 0

end M3

namespace M3

theorem pickGem_spec (types : Nat) (rng : Nat → Nat) (bad : Int → Bool) :
    ∀ fuel k gem k2, pickGem types rng bad fuel k = some (gem, k2) → bad gem = false := by
  intro fuel
  induction fuel with
  | zero =>
    intro k gem k2 h
    exact absurd h (by simp [pickGem])
  | succ fuel ih =>
    intro k gem k2 h
    simp only [pickGem] at h
    split at h
    · exact ih (k+1) gem k2 h
    · next hbad =>
      injection h with h
      injection h with h1 h2
      rw [← h1]
      exact Bool.eq_false_iff.mpr hbad

theorem badAt_false (rs : Grid) (row : List Int) (gem : Int)
    (h : badAt rs row gem = false) :
    ¬(2 ≤ row.length ∧ rowGet row (row.length - 1) = gem
        ∧ rowGet row (row.length - 2) = gem)
      ∧ ¬(2 ≤ rs.length ∧ cellAt rs (rs.length - 1) row.length = gem
        ∧ cellAt rs (rs.length - 2) row.length = gem) := by
  constructor
  · intro hx
    have : badAt rs row gem = true := by
      simp [badAt, hx.1, hx.2.1, hx.2.2]
    rw [this] at h
    exact absurd h (by simp)
  · intro hx
    have : badAt rs row gem = true := by
      simp [badAt, hx.1, hx.2.1, hx.2.2]
    rw [this] at h
    exact absurd h (by simp)

theorem buildRow_spec (types : Nat) (rng : Nat → Nat) (fuelPick : Nat) (rs : Grid) :
    ∀ m row k row2 k2, buildRow types rng fuelPick rs m row k = some (row2, k2) →
      row2.length = row.length + m
      ∧ (∀ j, j < row.length → rowGet row2 j = rowGet row j)
      ∧ (∀ c, row.length ≤ c → c < row2.length → rowPostAt rs row2 c) := by
  intro m
  induction m with
  | zero =>
    intro row k row2 k2 h
    simp only [buildRow] at h
    injection h with h
    injection h with h1 h2
    rw [← h1]
    exact ⟨rfl, fun j _ => rfl, fun c hc1 hc2 => absurd hc2 (by omega)⟩
  | succ m ih =>
    intro row k row2 k2 h
    simp only [buildRow] at h
    split at h
    · exact absurd h (by simp)
    · next gem k3 hpick =>
      have hbad := pickGem_spec types rng (badAt rs row) fuelPick k gem k3 hpick
      have hguard := badAt_false rs row gem hbad
      obtain ⟨hlen, hpre, hpost⟩ := ih (row ++ [gem]) k3 row2 k2 h
      have hlen2 : row2.length = row.length + (m + 1) := by
        rw [hlen]
        simp only [List.length_append, List.length_cons, List.length_nil]
        omega
      have hpre2 : ∀ j, j < row.length → rowGet row2 j = rowGet row j := by
        intro j hj
        rw [hpre j (by simp only [List.length_append, List.length_cons, List.length_nil]; omega)]
        unfold rowGet
        rw [getD_append_lt row [gem] j (-1) hj]
      refine ⟨hlen2, hpre2, ?_⟩
      intro c hc1 hc2
      rcases Nat.eq_or_lt_of_le hc1 with heq | hlt
      · have hcv : rowGet row2 c = gem := by
          rw [hpre c (by simp only [List.length_append, List.length_cons, List.length_nil]; omega),
            ← heq]
          unfold rowGet
          exact getD_snoc_len row gem (-1)
        constructor
        · intro hx
          have h2c : 2 ≤ c := hx.1
          have h1 : rowGet row2 (c-1) = rowGet row (c-1) := by
            rw [hpre (c-1)
              (by simp only [List.length_append, List.length_cons, List.length_nil]; omega)]
            unfold rowGet
            rw [getD_append_lt row [gem] (c-1) (-1) (by omega)]
          have h2 : rowGet row2 (c-2) = rowGet row (c-2) := by
            rw [hpre (c-2)
              (by simp only [List.length_append, List.length_cons, List.length_nil]; omega)]
            unfold rowGet
            rw [getD_append_lt row [gem] (c-2) (-1) (by omega)]
          apply hguard.1
          refine ⟨by omega, ?_, ?_⟩
          · rw [heq, ← h1, hx.2.1, hcv]
          · rw [heq, ← h2, hx.2.2, hcv]
        · intro hx
          apply hguard.2
          refine ⟨hx.1, ?_, ?_⟩
          · rw [heq, hx.2.1, hcv]
          · rw [heq, hx.2.2, hcv]
      · exact hpost c (by simp; omega) hc2

end M3

namespace M3

theorem buildRows_spec (size types : Nat) (rng : Nat → Nat) (fuelPick : Nat) :
    ∀ m rs k g2 k2, buildRows size types rng fuelPick m rs k = some (g2, k2) →
      g2.length = rs.length + m
      ∧ (∀ r, r < rs.length → g2.getD r [] = rs.getD r [])
      ∧ (∀ r, rs.length ≤ r → r < g2.length →
          (g2.getD r []).length = size ∧ ∀ c, c < size → gridPostAt g2 r c) := by
  intro m
  induction m with
  | zero =>
    intro rs k g2 k2 h
    simp only [buildRows] at h
    injection h with h
    injection h with h1 h2
    rw [← h1]
    exact ⟨rfl, fun r _ => rfl, fun r hr1 hr2 => absurd hr2 (by omega)⟩
  | succ m ih =>
    intro rs k g2 k2 h
    simp only [buildRows] at h
    split at h
    · exact absurd h (by simp)
    · next row2 k3 hrow =>
      obtain ⟨hrlen, _, hrpost⟩ :=
        buildRow_spec types rng fuelPick rs size [] k row2 k3 hrow
      rw [List.length_nil, Nat.zero_add] at hrlen
      obtain ⟨glen, gpre, gpost⟩ := ih (rs ++ [row2]) k3 g2 k2 h
      rw [List.length_append, List.length_cons, List.length_nil] at glen gpre gpost
      have hlen2 : g2.length = rs.length + (m + 1) := by omega
      have hpre2 : ∀ r, r < rs.length → g2.getD r [] = rs.getD r [] := by
        intro r hr
        rw [gpre r (by omega), getD_append_lt rs [row2] r [] hr]
      refine ⟨hlen2, hpre2, ?_⟩
      intro r hr1 hr2
      rcases Nat.eq_or_lt_of_le hr1 with heq | hlt
      · have hrowEq : g2.getD r [] = row2 := by
          rw [gpre r (by omega), ← heq, getD_snoc_len rs row2 []]
        have hcell : ∀ x, cellAt g2 r x = rowGet row2 x := by
          intro x
          unfold cellAt rowGet
          rw [hrowEq]
        refine ⟨by rw [hrowEq]; exact hrlen, ?_⟩
        intro c hc
        have hpc := hrpost c (Nat.zero_le c) (by rw [hrlen]; exact hc)
        constructor
        · intro hx
          apply hpc.1
          refine ⟨hx.1, ?_, ?_⟩
          · rw [← hcell (c-1), ← hcell c]
            exact hx.2.1
          · rw [← hcell (c-2), ← hcell c]
            exact hx.2.2
        · intro hx
          apply hpc.2
          have h2r : 2 ≤ r := hx.1
          have hup1 : cellAt g2 (r-1) c = cellAt rs (r-1) c := by
            unfold cellAt
            rw [gpre (r-1) (by omega), getD_append_lt rs [row2] (r-1) [] (by omega)]
          have hup2 : cellAt g2 (r-2) c = cellAt rs (r-2) c := by
            unfold cellAt
            rw [gpre (r-2) (by omega), getD_append_lt rs [row2] (r-2) [] (by omega)]
          refine ⟨by omega, ?_, ?_⟩
          · rw [heq, ← hup1, ← hcell c]
            exact hx.2.1
          · rw [heq, ← hup2, ← hcell c]
            exact hx.2.2
      · exact gpost r (by omega) hr2

theorem createBoard_spec (size types : Nat) (rng : Nat → Nat) (fuelPick k : Nat) (g : Grid)
    (h : createBoard size types rng fuelPick k = some g) :
    g.length = size ∧ (∀ row ∈ g, row.length = size) ∧ noRun3 g size := by
  unfold createBoard at h
  cases hb : buildRows size types rng fuelPick size [] k with
  | none =>
    rw [hb] at h
    exact absurd h (by simp)
  | some p =>
    rw [hb] at h
    simp only [Option.map_some'] at h
    injection h with h
    obtain ⟨glen, _, gpost⟩ :=
      buildRows_spec size types rng fuelPick size [] k p.1 p.2 (by rw [hb])
    rw [← h]
    have hlen : p.1.length = size := by
      rw [glen]
      simp
    have hrows : ∀ row ∈ p.1, row.length = size := by
      intro row hrow
      obtain ⟨i, hi, hieq⟩ := List.mem_iff_getElem.mp hrow
      have := (gpost i (Nat.zero_le i) (by omega)).1
      rw [List.getD_eq_getElem p.1 [] hi] at this
      rw [← hieq]
      exact this
    refine ⟨hlen, hrows, ?_, ?_⟩
    · intro r c hr hc
      intro hx
      have := (gpost r (Nat.zero_le r) (by omega)).2 (c+2) hc
      exact this.1 ⟨by omega, hx.2, hx.1.trans hx.2⟩
    · intro r c hr hc
      intro hx
      have := (gpost (r+2) (Nat.zero_le _) (by omega)).2 c hc
      exact this.2 ⟨by omega, hx.2, hx.1.trans hx.2⟩

end M3

/-- Claim C1: for the preset board sizes (7 to 9) and gem type counts
(5 to 7), a grid returned by `createBoard` contains no horizontal or
vertical run of three or more equal gems, and `findMatches` on it returns
the empty list. -/
theorem claim1_fresh_board_no_matches (size types : Nat)
    (hs1 : 7 ≤ size) (hs2 : size ≤ 9) (ht1 : 5 ≤ types) (ht2 : types ≤ 7)
    (rng : Nat → Nat) (fuelPick k : Nat) (g : M3.Grid)
    (h : M3.createBoard size types rng fuelPick k = some g) :
    M3.noRun3 g size ∧ M3.findMatches g = [] := by
  obtain ⟨hlen, hrows, hrun⟩ := M3.createBoard_spec size types rng fuelPick k g h
  exact ⟨hrun, M3.findMatches_eq_nil g size hlen hrun⟩

/-- A concrete freshly created board (size 7, 5 gem types, the identity
draw stream) has no run of three and no matches. -/
theorem claim1_witness :
    M3.noRun3 ((M3.createBoard 7 5 (fun i => i) 1 0).getD []) 7
      ∧ M3.findMatches ((M3.createBoard 7 5 (fun i => i) 1 0).getD []) = [] :=
  claim1_fresh_board_no_matches 7 5 (by decide) (by decide) (by decide) (by decide)
    (fun i => i) 1 0 _ (by decide)

/-! ### Claim 2: reshuffling on a settle with no valid move -/

namespace M3

theorem shuffleAttempts_spec (grid : Grid) (rng : Nat → Nat) :
    ∀ a k g2 k2, shuffleAttempts grid rng a k = (some g2, k2) →
      findMatches g2 = [] ∧ findValidMove g2 ≠ none := by
  intro a
  induction a with
  | zero =>
    intro k g2 k2 h
    simp only [shuffleAttempts] at h
    exact absurd h (by simp)
  | succ a ih =>
    intro k g2 k2 h
    simp only [shuffleAttempts] at h
    split at h
    · next hcond =>
      injection h with h1 h2
      injection h1 with h1
      rw [← h1]
      rw [Bool.and_eq_true] at hcond
      constructor
      · exact List.isEmpty_iff.mp hcond.1
      · intro hnone
        rw [hnone] at hcond
        exact absurd hcond.2 (by simp)
    · exact ih _ g2 k2 h

theorem shuffleBoard_spec (grid : Grid) (types : Nat) (rng : Nat → Nat) (fuelPick k : Nat)
    (g2 : Grid) (h : shuffleBoard grid types rng fuelPick k = some g2) :
    findMatches g2 = [] := by
  unfold shuffleBoard at h
  split at h
  · next g3 k3 heq =>
    injection h with h
    rw [← h]
    exact (shuffleAttempts_spec grid rng 100 k g3 k3 heq).1
  · obtain ⟨hlen, _, hrun⟩ :=
      createBoard_spec grid.length types rng fuelPick _ g2 h
    exact findMatches_eq_nil g2 grid.length hlen hrun

theorem fallingResolve_settle (game : M3Game) (types : Nat) (rng : Nat → Nat)
    (fuelPick k : Nat) (game' : M3Game)
    (hset : findMatches game.grid = [])
    (h : fallingResolve game types rng fuelPick k = some game') :
    game'.animState = AnimState.idle ∧ findMatches game'.grid = [] := by
  simp only [fallingResolve, hset] at h
  simp only [List.length_nil, lt_irrefl, if_false] at h
  split at h
  · split at h
    · exact absurd h (by simp)
    · next g3 hshuf =>
      injection h with h
      rw [← h]
      exact ⟨rfl, shuffleBoard_spec game.grid types rng fuelPick k g3 hshuf⟩
  · injection h with h
    rw [← h]
    exact ⟨rfl, hset⟩

end M3

/-- Counterexample to claim C2: a settle on `gridC2` (which has no valid
move) reshuffles, every shuffle attempt fails, and the fallback fresh
board is `gridC2` again - so the board in play after the settle cycle
still has zero valid moves, and such a board can persist. -/
theorem claim2_counterexample :
    M3.findValidMove gridC2 = none
      ∧ M3.findMatches gridC2 = []
      ∧ (M3.fallingResolve gameC2 5 rngC2 1 0).map M3.M3Game.grid = some gridC2 := by
  refine ⟨by decide, by decide, by decide⟩

/-- Claim C2 as amended: after a settle with no valid move the board is
reshuffled; a board accepted by one of the 100 shuffle attempts has no
matches and at least one valid move; the board installed by the settle
(an accepted shuffle or the fallback fresh board) never has matches and
the settle always ends in `idle`; but the fallback fresh board is not
guaranteed a valid move, so a board with zero valid moves can persist. -/
theorem claim2_amended_reshuffle :
    (∀ (grid : M3.Grid) (rng : Nat → Nat) (a k : Nat) (g2 : M3.Grid) (k2 : Nat),
        M3.shuffleAttempts grid rng a k = (some g2, k2) →
          M3.findMatches g2 = [] ∧ M3.findValidMove g2 ≠ none)
      ∧ (∀ (grid : M3.Grid) (types : Nat) (rng : Nat → Nat) (fuelPick k : Nat)
          (g2 : M3.Grid), M3.shuffleBoard grid types rng fuelPick k = some g2 →
            M3.findMatches g2 = [])
      ∧ (∀ (game : M3.M3Game) (types : Nat) (rng : Nat → Nat) (fuelPick k : Nat)
          (game' : M3.M3Game), M3.findMatches game.grid = [] →
            M3.fallingResolve game types rng fuelPick k = some game' →
              game'.animState = M3.AnimState.idle ∧ M3.findMatches game'.grid = []) :=
  ⟨fun grid rng a k g2 k2 h => M3.shuffleAttempts_spec grid rng a k g2 k2 h,
    fun grid types rng fuelPick k g2 h =>
      M3.shuffleBoard_spec grid types rng fuelPick k g2 h,
    fun game types rng fuelPick k game' hset h =>
      M3.fallingResolve_settle game types rng fuelPick k game' hset h⟩

/-- Concrete instances of the amended claim C2: the identity shuffle of
`gridW0` is accepted by the first attempt, so the attempt loop and the
whole reshuffle return it, and it has no matches and a valid move. -/
theorem claim2_witness :
    (M3.findMatches gridW0 = [] ∧ M3.findValidMove gridW0 ≠ none)
      ∧ M3.findMatches gridW0 = [] :=
  ⟨claim2_amended_reshuffle.1 gridW0 rngW9 100 0 gridW0 8 (by decide),
    claim2_amended_reshuffle.2.1 gridW0 5 rngW9 1 0 gridW0 (by decide)⟩
